import Mathlib

/-!
Verification of the go-mego/cb circuit breaker.

The operative implementation is the middleware version of `cb.go` (the file
with the full handler logic in `New`, `Breaker.fail` / `Breaker.success` as
`Breaker` methods, and a `lastInterval` field); it is modelled in namespace
`Cb`. The repository also contains a legacy variant of `cb.go` whose
admission logic is commented out and which exposes `Breaker.Execute`; the
parts of it that the claims cite (`Execute` and its `Counts` with a
`Requests` field) are modelled in namespace `CbGo`.

Time is modelled by integer timestamps (`Int`); durations are integers in
seconds, so the 60-second defaults become `60`. `time.Since(t)` at call time
`now` is `now - t`. the Go zero `time.Time` (the `lastFailure` of a breaker
that never recorded a failure) is modelled as timestamp `0`, with realistic
wall-clock `now` values being large and positive. the Go `nil` slice for an
unset `FailureStatuses` is modelled as the empty list.
-/

namespace Cb

/-- Breaker state, from the `State` constants: `StateClosed`, `StateHalfOpen`,
`StateOpen` (iota order 0, 1, 2). -/
inductive State where
  | StateClosed
  | StateHalfOpen
  | StateOpen
  deriving DecidableEq

/-- The `String` method on `State`. -/
def State.String : State → String
  | .StateClosed => "closed"
  | .StateHalfOpen => "half-open"
  | .StateOpen => "open"

/-- The `Counts` struct: success/failure ledger of the breaker. -/
structure Counts where
  TotalSuccesses : Nat
  TotalFailures : Nat
  ConsecutiveSuccesses : Nat
  ConsecutiveFailures : Nat
  deriving DecidableEq

/-- The all-zero `Counts{}` value. -/
def Counts.zero : Counts := ⟨0, 0, 0, 0⟩

/-- `DefaultFailureStatuses`: 500, 502, 503, 504, 506, 507. -/
def DefaultFailureStatuses : List Nat := [500, 502, 503, 504, 506, 507]

/-- `EmptyFailureStatuses`: the empty status list. -/
def EmptyFailureStatuses : List Nat := []

/-- The `Options` struct. `OnTrip` in Go also receives the request context;
the context plays no role in the breaker logic (the default policy ignores
it), so the policy is modelled as a function of `Counts` alone. A Go `nil`
`OnTrip` is `none`. -/
structure Options where
  Name : String
  FailureStatuses : List Nat
  Interval : Int
  Timeout : Int
  OnTrip : Option (Counts → Bool)

/-- The zero `Options{}` value (every field unset). -/
def Options.zero : Options :=
  { Name := "", FailureStatuses := [], Interval := 0, Timeout := 0, OnTrip := none }

/-- Applying the stored `OnTrip` callback. After `New` the callback is never
`nil`; the `none` branch is unreachable for constructed breakers (in Go a
`nil` callback would crash the call). -/
def Options.onTripFn (o : Options) : Counts → Bool :=
  match o.OnTrip with
  | some f => f
  | none => fun _ => false

/-- `tripper`, the default trip policy: trip when `ConsecutiveFailures >= 5`. -/
def tripper (counts : Counts) : Bool :=
  decide (5 ≤ counts.ConsecutiveFailures)

/-- The `Breaker` struct of the operative implementation. -/
structure Breaker where
  name : String
  state : State
  lastFailure : Int
  lastInterval : Int
  options : Options
  counts : Counts

/-- `Breaker.reset`: fresh counts, `lastInterval = time.Now()`, state closed. -/
def Breaker.reset (b : Breaker) (now : Int) : Breaker :=
  { b with counts := Counts.zero, lastInterval := now, state := State.StateClosed }

/-- `Breaker.fail`: stamp `lastFailure`, bump failure counters, zero the
success streak; a failure recorded in the half-open state reverts to open. -/
def Breaker.fail (b : Breaker) (now : Int) : Breaker :=
  let b := { b with
    lastFailure := now,
    counts := { b.counts with
      TotalFailures := b.counts.TotalFailures + 1,
      ConsecutiveFailures := b.counts.ConsecutiveFailures + 1,
      ConsecutiveSuccesses := 0 } }
  if b.state = State.StateHalfOpen then { b with state := State.StateOpen } else b

/-- `Breaker.success`: bump success counters, zero the failure streak; a
success recorded in the half-open state resets the whole breaker. -/
def Breaker.success (b : Breaker) (now : Int) : Breaker :=
  let b := { b with
    counts := { b.counts with
      TotalSuccesses := b.counts.TotalSuccesses + 1,
      ConsecutiveSuccesses := b.counts.ConsecutiveSuccesses + 1,
      ConsecutiveFailures := 0 } }
  if b.state = State.StateHalfOpen then b.reset now else b

/-- `Breaker.Open`: manual override, sets the state to open. -/
def Breaker.Open (b : Breaker) : Breaker :=
  { b with state := State.StateOpen }

/-- `Breaker.Close`: manual override, sets the state to closed. -/
def Breaker.Close (b : Breaker) : Breaker :=
  { b with state := State.StateClosed }

/-- `Breaker.Name` accessor. -/
def Breaker.Name (b : Breaker) : String := b.name

/-- `Breaker.State` accessor. -/
def Breaker.State (b : Breaker) : State := b.state

/-- `Breaker.Counts` accessor. -/
def Breaker.Counts (b : Breaker) : Counts := b.counts

/-- The construction part of `New`: defaulting of options and the `Breaker`
literal. The variadic `options ...*Options` parameter is a list; the options
literal pre-fills `FailureStatuses` with the default list, but a supplied
options value replaces that literal wholesale, and the per-field defaulting
that follows covers only `Name`, `Timeout`, `Interval` and `OnTrip`.
`now` is `time.Now()` at construction, stored in `lastInterval`;
`lastFailure` starts at the zero time. -/
def New (options : List Options) (now : Int) : Breaker :=
  let o : Options := { Options.zero with FailureStatuses := DefaultFailureStatuses }
  let o : Options := match options with
    | [] => o
    | o0 :: _ => o0
  let o := if o.Name = "" then { o with Name := "CircuitBreaker" } else o
  let o := if o.Timeout = 0 then { o with Timeout := 60 } else o
  let o := if o.Interval = 0 then { o with Interval := 60 } else o
  let o : Options := match o.OnTrip with
    | none => { o with OnTrip := some tripper }
    | some _ => o
  { name := o.Name, state := State.StateClosed, lastFailure := 0,
    lastInterval := now, options := o, counts := Counts.zero }

/-- The admission pre-check at the top of the handler closure returned by
`New`: an open breaker whose timeout has elapsed since the last failure
becomes half-open; a closed breaker whose interval has elapsed since the
last reset is reset, and then the trip policy is consulted on the current
counts, opening the breaker when it returns true. -/
def precheck (b : Breaker) (now : Int) : Breaker :=
  let b :=
    if b.state = State.StateOpen then
      if b.options.Timeout ≤ now - b.lastFailure then
        { b with state := State.StateHalfOpen }
      else b
    else b
  if b.state = State.StateClosed then
    let b := if b.options.Interval ≤ now - b.lastInterval then b.reset now else b
    if b.options.onTripFn b.counts then { b with state := State.StateOpen } else b
  else b

/-- One full pass of a request through the handler closure returned by `New`.
After the pre-check, an open breaker aborts the request with HTTP 503 and
`ErrOpenState` (the chain is not invoked, modelled by the `false` flag);
otherwise the chain runs, `status` is the status it writes, and the deferred
block records a failure when `status` is in `FailureStatuses` and a success
otherwise. The returned flag is `true` exactly when the request was
admitted. -/
def attempt (b : Breaker) (now : Int) (status : Nat) : Breaker × Bool :=
  let b := precheck b now
  if b.state = State.StateOpen then (b, false)
  else
    if b.options.FailureStatuses.contains status then (b.fail now, true)
    else (b.success now, true)

/-- Recording `n` consecutive failures, each at time `now`. -/
def failTimes (b : Breaker) (now : Int) : Nat → Breaker
  | 0 => b
  | n + 1 => failTimes (b.fail now) now n

/-- The operations a caller can perform on a breaker: the outcome-recording
and reset internals, the manual overrides, and a full guarded pass. -/
inductive Op where
  | failOp (now : Int)
  | successOp (now : Int)
  | resetOp (now : Int)
  | manualOpen
  | manualClose
  | attemptOp (now : Int) (status : Nat)

/-- Applying one operation to a breaker. -/
def applyOp (b : Breaker) : Op → Breaker
  | .failOp now => b.fail now
  | .successOp now => b.success now
  | .resetOp now => b.reset now
  | .manualOpen => b.Open
  | .manualClose => b.Close
  | .attemptOp now status => (attempt b now status).1

/-- Running a sequence of operations. -/
def run (b : Breaker) : List Op → Breaker
  | [] => b
  | op :: ops => run (applyOp b op) ops

/-- The mutual-exclusivity invariant on the consecutive counters. -/
def CountsOK (c : Counts) : Prop :=
  (0 < c.ConsecutiveSuccesses → c.ConsecutiveFailures = 0) ∧
  (0 < c.ConsecutiveFailures → c.ConsecutiveSuccesses = 0)

instance (c : Counts) : Decidable (CountsOK c) := by
  unfold CountsOK
  infer_instance

end Cb

namespace CbGo

/-- `ErrOpenState` of the legacy variant. -/
def ErrOpenState : String := "breaker: the circuit breaker is open"

/-- The legacy `Counts` struct, which also tracks `Requests`. -/
structure Counts where
  Requests : Nat
  TotalSuccesses : Nat
  TotalFailures : Nat
  ConsecutiveSuccesses : Nat
  ConsecutiveFailures : Nat
  deriving DecidableEq

/-- The legacy `Counts.success` method. -/
def Counts.success (c : Counts) : Counts :=
  { c with
    TotalSuccesses := c.TotalSuccesses + 1,
    ConsecutiveSuccesses := c.ConsecutiveSuccesses + 1,
    ConsecutiveFailures := 0 }

/-- The legacy `Counts.fail` method. -/
def Counts.fail (c : Counts) : Counts :=
  { c with
    TotalFailures := c.TotalFailures + 1,
    ConsecutiveFailures := c.ConsecutiveFailures + 1,
    ConsecutiveSuccesses := 0 }

/-- The legacy `Breaker`, restricted to the fields `Execute` touches. The
state enumeration is identical to the operative one and is reused. -/
structure Breaker where
  name : String
  state : Cb.State
  lastFailure : Int
  counts : Counts

/-- The legacy `Breaker.Execute`: it invokes `fn` unconditionally — there is
no state check of any kind — then records a failure (stamping `lastFailure`)
when the returned error is non-nil and a success otherwise, passing the
value and error of the operation through unchanged. Errors are modelled as
`Option String` (`none` is the Go `nil`). -/
def Breaker.Execute (b : Breaker) (now : Int) (fn : Unit → α × Option String) :
    Breaker × α × Option String :=
  let r := fn ()
  match r.2 with
  | some _ => ({ b with counts := b.counts.fail, lastFailure := now }, r.1, r.2)
  | none => ({ b with counts := b.counts.success }, r.1, r.2)

end CbGo

section Helpers

/-- The pre-check never changes the stored options. -/
lemma precheck_options (b : Cb.Breaker) (now : Int) :
    (Cb.precheck b now).options = b.options := by
  unfold Cb.precheck Cb.Breaker.reset
  by_cases h1 : b.state = Cb.State.StateOpen <;>
    by_cases h2 : b.options.Timeout ≤ now - b.lastFailure <;>
      by_cases h5 : b.state = Cb.State.StateClosed <;>
        by_cases h3 : b.options.Interval ≤ now - b.lastInterval <;>
          simp [h1, h2, h5, h3] <;> split <;> rfl

/-- The counts after the pre-check are the original counts or the zero
counts (the latter when the interval reset fired). -/
lemma precheck_counts (b : Cb.Breaker) (now : Int) :
    (Cb.precheck b now).counts = b.counts ∨
    (Cb.precheck b now).counts = Cb.Counts.zero := by
  unfold Cb.precheck Cb.Breaker.reset
  by_cases h1 : b.state = Cb.State.StateOpen <;>
    by_cases h2 : b.options.Timeout ≤ now - b.lastFailure <;>
      by_cases h5 : b.state = Cb.State.StateClosed <;>
        by_cases h3 : b.options.Interval ≤ now - b.lastInterval <;>
          simp [h1, h2, h5, h3] <;> split <;> simp

end Helpers

/-- Claim C5: the default trip policy `tripper` returns true exactly when
`ConsecutiveFailures` is at least 5, for every `Counts` value. -/
theorem tripper_trips_iff_five_consecutive_failures (c : Cb.Counts) :
    Cb.tripper c = true ↔ 5 ≤ c.ConsecutiveFailures := by
  simp [Cb.tripper]

/-- Claim C4: recording a failure while half-open moves the state to open and
stamps `lastFailure` with the current time; recording a success while
half-open resets fully, leaving the state closed and every counter zero. -/
theorem halfopen_fail_reopens_success_resets (b : Cb.Breaker) (now : Int)
    (h : b.state = Cb.State.StateHalfOpen) :
    (b.fail now).state = Cb.State.StateOpen ∧
    (b.fail now).lastFailure = now ∧
    (b.success now).state = Cb.State.StateClosed ∧
    (b.success now).counts = Cb.Counts.zero := by
  unfold Cb.Breaker.fail Cb.Breaker.success Cb.Breaker.reset
  refine ⟨?_, ?_, ?_, ?_⟩ <;> simp [h]

/-- A concrete breaker sitting in the half-open state. -/
def bHalfOpen : Cb.Breaker :=
  { name := "CircuitBreaker", state := Cb.State.StateHalfOpen, lastFailure := 0,
    lastInterval := 0, options := (Cb.New [] 0).options, counts := ⟨3, 4, 0, 2⟩ }

/-- Witness for claim C4 at a concrete half-open breaker and `now = 7`. -/
theorem halfopen_fail_reopens_success_resets_witness :
    bHalfOpen.state = Cb.State.StateHalfOpen ∧
    ((bHalfOpen.fail 7).state = Cb.State.StateOpen ∧
     (bHalfOpen.fail 7).lastFailure = 7 ∧
     (bHalfOpen.success 7).state = Cb.State.StateClosed ∧
     (bHalfOpen.success 7).counts = Cb.Counts.zero) :=
  ⟨rfl, halfopen_fail_reopens_success_resets bHalfOpen 7 rfl⟩

/-- A concrete legacy breaker sitting in the open state. -/
def bExecOpen : CbGo.Breaker :=
  { name := "CircuitBreaker", state := Cb.State.StateOpen, lastFailure := 0,
    counts := ⟨0, 0, 0, 0, 0⟩ }

/-- Claim C2: the legacy `Execute` performs no admission check at all. With
the breaker in the open state it still invokes the operation (the returned
value is the value produced by the operation), returns a nil error rather than the
breaker-open error, and records a success — contradicting the documented
behaviour that an open breaker makes `Execute` return the breaker-open
error without running the operation. -/
theorem execute_invokes_operation_while_open :
    (bExecOpen.Execute 5 (fun _ => (42, none))).2.1 = 42 ∧
    (bExecOpen.Execute 5 (fun _ => (42, none))).2.2 = none ∧
    (bExecOpen.Execute 5 (fun _ => (42, none))).1.counts.TotalSuccesses = 1 ∧
    (bExecOpen.Execute 5 (fun _ => (42, none))).1.state = Cb.State.StateOpen :=
  ⟨rfl, rfl, rfl, rfl⟩

/-- An options value supplied by the caller with `FailureStatuses` unset. -/
def optsUnsetStatuses : Cb.Options := { Cb.Options.zero with Name := "x" }

/-- Claim C9: a construction that supplies an options value with an unset
failure-status list does not receive the default list — the construction
keeps the empty (nil) list, while the construction with no options value at
all does get the default server-error list. The per-field defaulting after
the initial literal covers only Name, Timeout, Interval and OnTrip. -/
theorem new_with_options_skips_failure_statuses_default :
    (Cb.New [optsUnsetStatuses] 0).options.FailureStatuses = [] ∧
    (Cb.New [] 0).options.FailureStatuses = Cb.DefaultFailureStatuses ∧
    Cb.DefaultFailureStatuses ≠ [] ∧
    (Cb.New [optsUnsetStatuses] 0).options.Timeout = 60 ∧
    (Cb.New [optsUnsetStatuses] 0).options.Interval = 60 :=
  ⟨rfl, rfl, by decide, rfl, rfl⟩

/-- A breaker holding five stale consecutive failures. -/
def bStaleCounts : Cb.Breaker :=
  { name := "CircuitBreaker", state := Cb.State.StateOpen, lastFailure := 50,
    lastInterval := 0, options := (Cb.New [] 0).options, counts := ⟨0, 5, 0, 5⟩ }

/-- Claim C6 counterexample: the manual `Close` does not reset the counts —
after `Close` on a breaker with five stale consecutive failures the counts
are unchanged (not all-zero), and the next attempt (within the interval) is
rejected because the default trip policy immediately re-trips on the stale
counts. -/
theorem close_keeps_counts_and_next_attempt_rejected :
    (bStaleCounts.Close).state = Cb.State.StateClosed ∧
    (bStaleCounts.Close).counts = bStaleCounts.counts ∧
    (bStaleCounts.Close).counts ≠ Cb.Counts.zero ∧
    (Cb.attempt bStaleCounts.Close 55 200).2 = false :=
  ⟨rfl, rfl, by decide, rfl⟩

/-- Claim C6 as amended: the manual `Close` from any state sets the state to
closed and leaves the counts unchanged; the next attempt is admitted
provided the pre-check does not re-trip, i.e. when the interval has not
elapsed and the trip policy returns false on the retained counts. -/
theorem close_admits_next_attempt_unless_retripped (b : Cb.Breaker) (now : Int)
    (status : Nat)
    (hTrip : b.options.onTripFn b.counts = false)
    (hInt : now - b.lastInterval < b.options.Interval) :
    (b.Close).state = Cb.State.StateClosed ∧
    (b.Close).counts = b.counts ∧
    (Cb.attempt b.Close now status).2 = true := by
  refine ⟨rfl, rfl, ?_⟩
  unfold Cb.attempt Cb.precheck Cb.Breaker.Close Cb.Breaker.reset
  simp [not_le.2 hInt, hTrip]
  split <;> rfl

/-- Witness for the amended claim C6: a freshly constructed breaker, closed
manually, admits the attempt at time 10. -/
theorem close_admits_next_attempt_unless_retripped_witness :
    (Cb.New [] 0).options.onTripFn (Cb.New [] 0).counts = false ∧
    (10 : Int) - (Cb.New [] 0).lastInterval < (Cb.New [] 0).options.Interval ∧
    (((Cb.New [] 0).Close).state = Cb.State.StateClosed ∧
     ((Cb.New [] 0).Close).counts = (Cb.New [] 0).counts ∧
     (Cb.attempt (Cb.New [] 0).Close 10 200).2 = true) :=
  ⟨rfl, by decide,
    close_admits_next_attempt_unless_retripped (Cb.New [] 0) 10 200 rfl (by decide)⟩

/-- Claim C7 counterexample: a freshly constructed breaker has the zero
last-failure time, so immediately after a manual `Open` at construction time
1000 the timeout pre-check finds 1000 - 0 >= 60, flips the state to
half-open, and the very next attempt is admitted rather than rejected. -/
theorem open_then_next_attempt_admitted :
    ((Cb.New [] 1000).Open).state = Cb.State.StateOpen ∧
    (Cb.attempt (Cb.New [] 1000).Open 1000 200).2 = true ∧
    (Cb.precheck (Cb.New [] 1000).Open 1000).state = Cb.State.StateHalfOpen :=
  ⟨rfl, rfl, rfl⟩

/-- Claim C7 as amended: after a manual `Open`, the immediately following
attempt is rejected regardless of the counts, provided strictly less than
the timeout has elapsed since the last recorded failure; when the timeout
has already elapsed relative to the stored last-failure time (in particular
when no failure was ever recorded and the clock is far past the zero time)
the attempt is instead admitted as a half-open probe. -/
theorem open_then_next_attempt_rejected_before_timeout (b : Cb.Breaker)
    (now : Int) (status : Nat)
    (h : now - b.lastFailure < b.options.Timeout) :
    (b.Open).state = Cb.State.StateOpen ∧
    (Cb.attempt b.Open now status).2 = false := by
  refine ⟨rfl, ?_⟩
  unfold Cb.attempt Cb.precheck Cb.Breaker.Open
  simp [not_le.2 h]

/-- Witness for the amended claim C7: a fresh breaker that failed at time 0,
opened manually, rejects the attempt at time 30 < 60. -/
theorem open_then_next_attempt_rejected_before_timeout_witness :
    (30 : Int) - (Cb.New [] 0).lastFailure < (Cb.New [] 0).options.Timeout ∧
    (((Cb.New [] 0).Open).state = Cb.State.StateOpen ∧
     (Cb.attempt (Cb.New [] 0).Open 30 200).2 = false) :=
  ⟨by decide, open_then_next_attempt_rejected_before_timeout (Cb.New [] 0) 30 200 (by decide)⟩

/-- Claim C3: with the breaker open, an attempt strictly before the timeout
has elapsed since the last failure is rejected and leaves the breaker
completely unchanged; an attempt at or after the timeout flips the state to
half-open in the pre-check (before execution) and is admitted. -/
theorem open_attempt_timeout_gate (b : Cb.Breaker) (now : Int) (status : Nat)
    (hOpen : b.state = Cb.State.StateOpen) :
    (now - b.lastFailure < b.options.Timeout →
      (Cb.attempt b now status).2 = false ∧ (Cb.attempt b now status).1 = b) ∧
    (b.options.Timeout ≤ now - b.lastFailure →
      (Cb.precheck b now).state = Cb.State.StateHalfOpen ∧
      (Cb.attempt b now status).2 = true) := by
  constructor
  · intro h
    unfold Cb.attempt Cb.precheck
    simp [hOpen, not_le.2 h]
  · intro h
    unfold Cb.attempt Cb.precheck
    simp [hOpen, h]
    split <;> simp

/-- A concrete open breaker whose last failure is at time 100. -/
def bOpenRecent : Cb.Breaker :=
  { Cb.New [] 0 with state := Cb.State.StateOpen, lastFailure := 100 }

/-- Witness for claim C3 at a concrete open breaker and `now = 120`. -/
theorem open_attempt_timeout_gate_witness :
    bOpenRecent.state = Cb.State.StateOpen ∧
    (((120 : Int) - bOpenRecent.lastFailure < bOpenRecent.options.Timeout →
      (Cb.attempt bOpenRecent 120 200).2 = false ∧
      (Cb.attempt bOpenRecent 120 200).1 = bOpenRecent) ∧
     (bOpenRecent.options.Timeout ≤ (120 : Int) - bOpenRecent.lastFailure →
      (Cb.precheck bOpenRecent 120).state = Cb.State.StateHalfOpen ∧
      (Cb.attempt bOpenRecent 120 200).2 = true)) :=
  ⟨rfl, open_attempt_timeout_gate bOpenRecent 120 200 rfl⟩

/-- Recording a failure while closed leaves the state closed, bumps the
consecutive-failure streak, and touches neither `lastInterval` nor the
options. -/
lemma fail_closed_step (b : Cb.Breaker) (now : Int)
    (hb : b.state = Cb.State.StateClosed) :
    (b.fail now).state = Cb.State.StateClosed ∧
    (b.fail now).counts.ConsecutiveFailures = b.counts.ConsecutiveFailures + 1 ∧
    (b.fail now).lastInterval = b.lastInterval ∧
    (b.fail now).options = b.options := by
  unfold Cb.Breaker.fail
  refine ⟨?_, ?_, ?_, ?_⟩ <;> simp [hb]

/-- Recording failures repeatedly from a closed breaker keeps it closed,
accumulates the consecutive-failure streak, and preserves `lastInterval`
and the options. -/
lemma failTimes_from_closed (now : Int) (n : Nat) :
    ∀ b : Cb.Breaker, b.state = Cb.State.StateClosed →
      (Cb.failTimes b now n).state = Cb.State.StateClosed ∧
      (Cb.failTimes b now n).counts.ConsecutiveFailures
        = b.counts.ConsecutiveFailures + n ∧
      (Cb.failTimes b now n).lastInterval = b.lastInterval ∧
      (Cb.failTimes b now n).options = b.options := by
  induction n with
  | zero => intro b hb; exact ⟨hb, rfl, rfl, rfl⟩
  | succ n ih =>
      intro b hb
      obtain ⟨f1, f2, f3, f4⟩ := fail_closed_step b now hb
      obtain ⟨h1, h2, h3, h4⟩ := ih (b.fail now) f1
      refine ⟨h1, ?_, h3.trans f3, h4.trans f4⟩
      show (Cb.failTimes (b.fail now) now n).counts.ConsecutiveFailures = _
      rw [h2, f2]
      omega

/-- A closed breaker whose interval has not yet elapsed and whose trip
policy fires on the current counts is moved to the open state by the
pre-check, with everything else unchanged. -/
lemma precheck_closed_trips (b : Cb.Breaker) (now : Int)
    (hb : b.state = Cb.State.StateClosed)
    (hInt : now - b.lastInterval < b.options.Interval)
    (htrip : b.options.onTripFn b.counts = true) :
    Cb.precheck b now = { b with state := Cb.State.StateOpen } := by
  unfold Cb.precheck
  simp [hb, not_le.2 hInt, htrip]

/-- When the pre-check leaves the breaker open the attempt is rejected with
the pre-checked breaker returned unchanged. -/
lemma attempt_rejected_of_precheck_open (b : Cb.Breaker) (now : Int) (status : Nat)
    (h : (Cb.precheck b now).state = Cb.State.StateOpen) :
    Cb.attempt b now status = (Cb.precheck b now, false) := by
  unfold Cb.attempt
  simp [h]

/-- Claim C1: from a freshly constructed breaker with the default options
(trip threshold 5, interval 60), after exactly `n >= 5` consecutive recorded
failures the breaker is still closed (recording a failure while closed never
changes the state at recording time) with a streak of `n`, and the next
attempt — made before the interval elapses — is rejected before the guarded
operation is invoked, the trip policy having fired during the admission
pre-check. -/
theorem closed_failures_reject_next_attempt (t0 tf now : Int) (n status : Nat)
    (hN : 5 ≤ n) (hInt : now - t0 < 60) :
    (Cb.failTimes (Cb.New [] t0) tf n).state = Cb.State.StateClosed ∧
    (Cb.failTimes (Cb.New [] t0) tf n).counts.ConsecutiveFailures = n ∧
    (Cb.attempt (Cb.failTimes (Cb.New [] t0) tf n) now status).2 = false ∧
    (Cb.attempt (Cb.failTimes (Cb.New [] t0) tf n) now status).1.state
      = Cb.State.StateOpen := by
  obtain ⟨h1, h2, h3, h4⟩ := failTimes_from_closed tf n (Cb.New [] t0) rfl
  have h2n : (Cb.failTimes (Cb.New [] t0) tf n).counts.ConsecutiveFailures = n := by
    rw [h2]; show 0 + n = n; omega
  have hInt2 : now - (Cb.failTimes (Cb.New [] t0) tf n).lastInterval
      < (Cb.failTimes (Cb.New [] t0) tf n).options.Interval := by
    rw [h3, h4]; exact hInt
  have htrip : (Cb.failTimes (Cb.New [] t0) tf n).options.onTripFn
      (Cb.failTimes (Cb.New [] t0) tf n).counts = true := by
    rw [h4]
    show Cb.tripper (Cb.failTimes (Cb.New [] t0) tf n).counts = true
    unfold Cb.tripper
    rw [h2n]
    exact decide_eq_true hN
  have hpre : Cb.precheck (Cb.failTimes (Cb.New [] t0) tf n) now
      = { Cb.failTimes (Cb.New [] t0) tf n with state := Cb.State.StateOpen } :=
    precheck_closed_trips _ now h1 hInt2 htrip
  have hrej := attempt_rejected_of_precheck_open
    (Cb.failTimes (Cb.New [] t0) tf n) now status (by rw [hpre])
  refine ⟨h1, h2n, ?_, ?_⟩
  · rw [hrej]
  · rw [hrej]; rw [hpre]

/-- Witness for claim C1: constructed at time 0, five failures at time 1,
attempt at time 2 with status 200 is rejected. -/
theorem closed_failures_reject_next_attempt_witness :
    ((5 : Nat) ≤ 5 ∧ (2 : Int) - 0 < 60) ∧
    ((Cb.failTimes (Cb.New [] 0) 1 5).state = Cb.State.StateClosed ∧
     (Cb.failTimes (Cb.New [] 0) 1 5).counts.ConsecutiveFailures = 5 ∧
     (Cb.attempt (Cb.failTimes (Cb.New [] 0) 1 5) 2 200).2 = false ∧
     (Cb.attempt (Cb.failTimes (Cb.New [] 0) 1 5) 2 200).1.state
       = Cb.State.StateOpen) :=
  ⟨⟨by decide, by decide⟩,
    closed_failures_reject_next_attempt 0 1 2 5 200 (by decide) (by decide)⟩

/-- The zero counts satisfy the mutual-exclusivity invariant. -/
lemma countsOK_zero : Cb.CountsOK Cb.Counts.zero := by decide

/-- Any recorded failure ends with a zero success streak, so the invariant
holds unconditionally afterwards. -/
lemma countsOK_fail (b : Cb.Breaker) (now : Int) :
    Cb.CountsOK (b.fail now).counts := by
  have h : (b.fail now).counts.ConsecutiveSuccesses = 0 := by
    unfold Cb.Breaker.fail
    by_cases hb : b.state = Cb.State.StateHalfOpen <;> simp [hb]
  constructor
  · intro hs; rw [h] at hs; omega
  · intro _; exact h

/-- Any recorded success ends with a zero failure streak (also through the
half-open reset), so the invariant holds unconditionally afterwards. -/
lemma countsOK_success (b : Cb.Breaker) (now : Int) :
    Cb.CountsOK (b.success now).counts := by
  have h : (b.success now).counts.ConsecutiveFailures = 0 := by
    unfold Cb.Breaker.success Cb.Breaker.reset
    by_cases hb : b.state = Cb.State.StateHalfOpen <;> simp [hb, Cb.Counts.zero]
  constructor
  · intro _; exact h
  · intro hf; rw [h] at hf; omega

/-- A full attempt preserves the mutual-exclusivity invariant. -/
lemma countsOK_attempt (b : Cb.Breaker) (now : Int) (status : Nat)
    (h : Cb.CountsOK b.counts) :
    Cb.CountsOK (Cb.attempt b now status).1.counts := by
  by_cases h1 : (Cb.precheck b now).state = Cb.State.StateOpen
  · have : (Cb.attempt b now status).1 = Cb.precheck b now := by
      unfold Cb.attempt; simp [h1]
    rw [this]
    rcases precheck_counts b now with hc | hc <;> rw [hc]
    · exact h
    · exact countsOK_zero
  · by_cases h2 : status ∈ (Cb.precheck b now).options.FailureStatuses
    · have : (Cb.attempt b now status).1 = (Cb.precheck b now).fail now := by
        unfold Cb.attempt; simp [h1, h2]
      rw [this]; exact countsOK_fail _ now
    · have : (Cb.attempt b now status).1 = (Cb.precheck b now).success now := by
        unfold Cb.attempt; simp [h1, h2]
      rw [this]; exact countsOK_success _ now

/-- Every single operation preserves the mutual-exclusivity invariant. -/
lemma countsOK_applyOp (b : Cb.Breaker) (op : Cb.Op)
    (h : Cb.CountsOK b.counts) :
    Cb.CountsOK (Cb.applyOp b op).counts := by
  cases op with
  | failOp now => exact countsOK_fail b now
  | successOp now => exact countsOK_success b now
  | resetOp now => exact countsOK_zero
  | manualOpen => exact h
  | manualClose => exact h
  | attemptOp now status => exact countsOK_attempt b now status h

/-- Running any operation sequence preserves the invariant. -/
lemma countsOK_run (b : Cb.Breaker) (ops : List Cb.Op)
    (h : Cb.CountsOK b.counts) :
    Cb.CountsOK (Cb.run b ops).counts := by
  induction ops generalizing b with
  | nil => exact h
  | cons op ops ih => exact ih (Cb.applyOp b op) (countsOK_applyOp b op h)

/-- Claim C8: for every sequence of recorded outcomes, attempts, manual
overrides and resets starting from a freshly constructed breaker, the counts
always satisfy mutual exclusivity of the consecutive streaks. -/
theorem consecutive_streaks_mutually_exclusive (opts : List Cb.Options)
    (t0 : Int) (ops : List Cb.Op) :
    Cb.CountsOK (Cb.run (Cb.New opts t0) ops).counts :=
  countsOK_run (Cb.New opts t0) ops countsOK_zero

/-- A half-open breaker configured with the empty failure-status list. -/
def bProbe : Cb.Breaker :=
  { name := "CircuitBreaker", state := Cb.State.StateHalfOpen, lastFailure := 0,
    lastInterval := 0,
    options := { Name := "CircuitBreaker", FailureStatuses := Cb.EmptyFailureStatuses,
                 Interval := 60, Timeout := 60, OnTrip := some Cb.tripper },
    counts := Cb.Counts.zero }

/-- Claim C10 counterexample: with the empty failure-status list a completed
(admitted) half-open probe whose status is 200 records a success, but the
success recording triggers the full reset, so TotalSuccesses ends at zero
instead of being incremented. -/
theorem halfopen_success_does_not_increment_totals :
    (Cb.attempt bProbe 10 200).2 = true ∧
    bProbe.options.FailureStatuses = [] ∧
    (Cb.attempt bProbe 10 200).1.counts.TotalSuccesses
      ≠ bProbe.counts.TotalSuccesses + 1 ∧
    (Cb.attempt bProbe 10 200).1.counts.TotalSuccesses = 0 :=
  ⟨rfl, rfl, by decide, rfl⟩

/-- The failure recording changes the counts the same way in every state. -/
lemma fail_counts_eq (b : Cb.Breaker) (now : Int) :
    (b.fail now).counts = { b.counts with
      TotalFailures := b.counts.TotalFailures + 1,
      ConsecutiveFailures := b.counts.ConsecutiveFailures + 1,
      ConsecutiveSuccesses := 0 } := by
  unfold Cb.Breaker.fail
  by_cases hb : b.state = Cb.State.StateHalfOpen <;> simp [hb]

/-- Outside the half-open state the success recording increments the success
counters without any reset. -/
lemma success_counts_eq_of_not_halfopen (b : Cb.Breaker) (now : Int)
    (h : b.state ≠ Cb.State.StateHalfOpen) :
    (b.success now).counts = { b.counts with
      TotalSuccesses := b.counts.TotalSuccesses + 1,
      ConsecutiveSuccesses := b.counts.ConsecutiveSuccesses + 1,
      ConsecutiveFailures := 0 } := by
  unfold Cb.Breaker.success
  simp [h]

/-- In the half-open state the success recording resets the breaker, ending
with all-zero counts. -/
lemma success_counts_eq_of_halfopen (b : Cb.Breaker) (now : Int)
    (h : b.state = Cb.State.StateHalfOpen) :
    (b.success now).counts = Cb.Counts.zero := by
  unfold Cb.Breaker.success Cb.Breaker.reset
  simp [h]

/-- Claim C10 as amended: for every admitted attempt exactly one outcome is
recorded — a failure when the response status is in the configured list and
a success otherwise, with no neutral outcome. A recorded failure always
increments TotalFailures; a recorded success increments TotalSuccesses
unless the breaker was half-open at recording time, in which case the
success triggers the full reset and every counter ends zero. With the empty
failure-status list this makes every completed non-probe attempt increment
TotalSuccesses. -/
theorem admitted_attempt_records_exactly_one_outcome (b : Cb.Breaker)
    (now : Int) (status : Nat)
    (hAdm : (Cb.attempt b now status).2 = true) :
    ((Cb.attempt b now status).1 =
      if status ∈ b.options.FailureStatuses
        then (Cb.precheck b now).fail now
        else (Cb.precheck b now).success now) ∧
    (status ∈ b.options.FailureStatuses →
      (Cb.attempt b now status).1.counts.TotalFailures
        = (Cb.precheck b now).counts.TotalFailures + 1) ∧
    (status ∉ b.options.FailureStatuses →
      (Cb.precheck b now).state ≠ Cb.State.StateHalfOpen →
      (Cb.attempt b now status).1.counts.TotalSuccesses
        = (Cb.precheck b now).counts.TotalSuccesses + 1) ∧
    (status ∉ b.options.FailureStatuses →
      (Cb.precheck b now).state = Cb.State.StateHalfOpen →
      (Cb.attempt b now status).1.counts = Cb.Counts.zero) := by
  have hNotOpen : ¬ (Cb.precheck b now).state = Cb.State.StateOpen := by
    intro h
    rw [attempt_rejected_of_precheck_open b now status h] at hAdm
    exact Bool.false_ne_true hAdm
  have hmem : (status ∈ (Cb.precheck b now).options.FailureStatuses)
      ↔ (status ∈ b.options.FailureStatuses) := by
    rw [precheck_options]
  by_cases h2 : status ∈ b.options.FailureStatuses
  · have hstep : (Cb.attempt b now status).1 = (Cb.precheck b now).fail now := by
      unfold Cb.attempt; simp [hNotOpen, hmem.2 h2]
    refine ⟨by rw [hstep, if_pos h2], fun _ => ?_, fun hn _ => absurd h2 hn,
      fun hn _ => absurd h2 hn⟩
    rw [hstep, fail_counts_eq]
  · have h2p : status ∉ (Cb.precheck b now).options.FailureStatuses :=
      fun hh => h2 (hmem.1 hh)
    have hstep : (Cb.attempt b now status).1 = (Cb.precheck b now).success now := by
      unfold Cb.attempt
      simp [hNotOpen, h2p]
    refine ⟨by rw [hstep, if_neg h2], fun hc => absurd hc h2, fun _ hho => ?_,
      fun _ hho => ?_⟩
    · rw [hstep, success_counts_eq_of_not_halfopen _ now hho]
    · rw [hstep, success_counts_eq_of_halfopen _ now hho]

/-- Witness for the amended claim C10: the fresh breaker admits the attempt
at time 0 with status 200 and the recording facts hold there. -/
theorem admitted_attempt_records_exactly_one_outcome_witness :
    (Cb.attempt (Cb.New [] 0) 0 200).2 = true ∧
    (((Cb.attempt (Cb.New [] 0) 0 200).1 =
       if (200 : Nat) ∈ (Cb.New [] 0).options.FailureStatuses
         then (Cb.precheck (Cb.New [] 0) 0).fail 0
         else (Cb.precheck (Cb.New [] 0) 0).success 0) ∧
     ((200 : Nat) ∈ (Cb.New [] 0).options.FailureStatuses →
       (Cb.attempt (Cb.New [] 0) 0 200).1.counts.TotalFailures
         = (Cb.precheck (Cb.New [] 0) 0).counts.TotalFailures + 1) ∧
     ((200 : Nat) ∉ (Cb.New [] 0).options.FailureStatuses →
       (Cb.precheck (Cb.New [] 0) 0).state ≠ Cb.State.StateHalfOpen →
       (Cb.attempt (Cb.New [] 0) 0 200).1.counts.TotalSuccesses
         = (Cb.precheck (Cb.New [] 0) 0).counts.TotalSuccesses + 1) ∧
     ((200 : Nat) ∉ (Cb.New [] 0).options.FailureStatuses →
       (Cb.precheck (Cb.New [] 0) 0).state = Cb.State.StateHalfOpen →
       (Cb.attempt (Cb.New [] 0) 0 200).1.counts = Cb.Counts.zero)) :=
  ⟨rfl, admitted_attempt_records_exactly_one_outcome (Cb.New [] 0) 0 200 rfl⟩
